import Mathlib

/-!
Verification of the budget/finance backend (`backend/server.py`).

The development shallowly embeds the parts of the server that the claims
are about:

* a proleptic-Gregorian calendar mirroring Python `datetime.date`
  (`weekday`, `replace`, `timedelta` arithmetic on days, `isoformat`);
* the Mongo document store as Lean lists of documents, with `find_one`
  as `List.find?`, `insert_one` as list append, `update_one` as an
  update of the first matching document, and `$gte`/`$lte` on the
  zero-padded ISO date strings as lexicographic string comparison;
* the route handlers `create_transaction`, `create_budget`,
  `get_budget_overview` and `get_spending_by_category` as pure
  functions from a request plus a database value to a result plus the
  new database value.  Python floats are modelled as rationals; the
  generated `uuid` and `created_at` values are passed in as parameters.
-/

namespace BudgetServer

/-! ### Calendar: a shallow embedding of Python `datetime.date`

`datetime.date` is a proleptic Gregorian date with `1 ≤ year ≤ 9999`.
`weekday()` returns 0 for Monday.  `date - timedelta(days=k)` and
`date + timedelta(days=k)` move `k` calendar days; we embed them as
`k`-fold single-day stepping, which satisfies the characteristic
equation `toOrdinal (d ± k) = toOrdinal d ± k` proved below
(`toOrdinal` is Python's `date.toordinal`, days since 0001-01-01
counted from 1). -/

structure Date where
  year : Nat
  month : Nat
  day : Nat
deriving DecidableEq, Repr

/-- Gregorian leap-year test, as in Python `calendar.isleap`. -/
def isLeap (y : Nat) : Bool :=
  (y % 4 == 0 && y % 100 != 0) || y % 400 == 0

/-- Number of days of month `m` in year `y` (months are 1-based). -/
def daysInMonth (y m : Nat) : Nat :=
  if m = 2 then (if isLeap y then 29 else 28)
  else if m = 4 ∨ m = 6 ∨ m = 9 ∨ m = 11 then 30
  else 31

/-- Validity of a date, exactly the range Python `date` accepts
(year 9999 cap aside, which no claim depends on). -/
def Date.Valid (d : Date) : Prop :=
  1 ≤ d.year ∧ 1 ≤ d.month ∧ d.month ≤ 12 ∧ 1 ≤ d.day ∧
    d.day ≤ daysInMonth d.year d.month

instance (d : Date) : Decidable d.Valid := by
  unfold Date.Valid; infer_instance

/-- Days in all years before year `y` (CPython `_days_before_year`). -/
def daysBeforeYear (y : Nat) : Nat :=
  365 * (y - 1) + (y - 1) / 4 - (y - 1) / 100 + (y - 1) / 400

/-- Days in year `y` strictly before month `m`
(CPython `_days_before_month`, here by recursion on the month). -/
def daysBeforeMonth (y : Nat) : Nat → Nat
  | 0 => 0
  | 1 => 0
  | m + 1 => daysBeforeMonth y m + daysInMonth y m

/-- Python `date.toordinal`: 0001-01-01 is day 1. -/
def Date.toOrdinal (d : Date) : Nat :=
  daysBeforeYear d.year + daysBeforeMonth d.year d.month + d.day

/-- Python `date.weekday`: Monday is 0.  0001-01-01 (ordinal 1) is a
Monday, so the weekday is `(ordinal + 6) % 7`. -/
def Date.weekday (d : Date) : Nat :=
  (d.toOrdinal + 6) % 7

/-- The calendar day before `d`. -/
def Date.prev (d : Date) : Date :=
  if 2 ≤ d.day then ⟨d.year, d.month, d.day - 1⟩
  else if 2 ≤ d.month then ⟨d.year, d.month - 1, daysInMonth d.year (d.month - 1)⟩
  else ⟨d.year - 1, 12, 31⟩

/-- The calendar day after `d`. -/
def Date.next (d : Date) : Date :=
  if d.day < daysInMonth d.year d.month then ⟨d.year, d.month, d.day + 1⟩
  else if d.month < 12 then ⟨d.year, d.month + 1, 1⟩
  else ⟨d.year + 1, 1, 1⟩

/-- Python `d - timedelta(days=k)`. -/
def Date.subDays (d : Date) : Nat → Date
  | 0 => d
  | k + 1 => (d.subDays k).prev

/-- Python `d + timedelta(days=k)`. -/
def Date.addDays (d : Date) : Nat → Date
  | 0 => d
  | k + 1 => (d.addDays k).next

/-! ### ISO-8601 formatting and Mongo string comparison

`date.isoformat()` produces `YYYY-MM-DD` with zero padding (Python
years are at most 9999, so four year digits).  MongoDB compares the
stored date strings with `$gte`/`$lte` lexicographically. -/

def digitChar (n : Nat) : Char := Char.ofNat (48 + n % 10)

def pad2 (n : Nat) : List Char := [digitChar (n / 10), digitChar n]

def pad4 (n : Nat) : List Char :=
  [digitChar (n / 1000), digitChar (n / 100), digitChar (n / 10), digitChar n]

/-- Python `date.isoformat`. -/
def Date.isoformat (d : Date) : String :=
  ⟨pad4 d.year ++ '-' :: pad2 d.month ++ '-' :: pad2 d.day⟩

def charLe (a b : Char) : Bool := a.val ≤ b.val

/-- Lexicographic order on character lists. -/
def lexLe : List Char → List Char → Bool
  | [], _ => true
  | _ :: _, [] => false
  | a :: as, b :: bs => if a = b then lexLe as bs else charLe a b

/-- Lexicographic string comparison, the order MongoDB uses for
`$gte`/`$lte` on the stored ISO date strings. -/
def strLe (a b : String) : Bool := lexLe a.data b.data

/-! ### The document model

One structure per Mongo document shape, with Python floats as
rationals and dates stored as the ISO strings the server writes.  The
store itself is a list per collection; `find_one` is `List.find?`,
`insert_one` appends, `update_one` rewrites the first matching
document.  The generated `uuid` and `created_at` values are passed to
the handlers as parameters. -/

inductive TransactionType where
  | income
  | expense
deriving DecidableEq, Repr

/-- The string value of the `TransactionType` enum in the source. -/
def TransactionType.value : TransactionType → String
  | .income => "ingreso"
  | .expense => "gasto"

inductive BudgetPeriod where
  | weekly
  | monthly
  | yearly
deriving DecidableEq, Repr

/-- The string value of the `BudgetPeriod` enum in the source. -/
def BudgetPeriod.value : BudgetPeriod → String
  | .weekly => "semanal"
  | .monthly => "mensual"
  | .yearly => "anual"

structure CategoryDoc where
  id : String
  name : String
  color : String
  type : String
  created_at : String
deriving DecidableEq, Repr

structure TransactionDoc where
  id : String
  type : String
  amount : ℚ
  category_id : String
  category_name : String
  description : String
  date : String
  created_at : String
deriving DecidableEq, Repr

structure BudgetDoc where
  id : String
  category_id : String
  category_name : String
  amount : ℚ
  period : String
  created_at : String
deriving DecidableEq, Repr

structure DB where
  categories : List CategoryDoc
  transactions : List TransactionDoc
  budgets : List BudgetDoc
deriving DecidableEq, Repr

/-- Mongo `update_one`: rewrite the first document matching the
filter, leave everything else in place. -/
def updateFirst {α : Type} (p : α → Bool) (f : α → α) : List α → List α
  | [] => []
  | x :: xs => if p x then f x :: xs else x :: updateFirst p f xs

inductive ApiError where
  | notFound (msg : String)
  | serverError
deriving DecidableEq, Repr

/-! ### Period windows (`get_budget_overview`, lines 235-247) -/

/-- The `[start_date, end_date]` window `get_budget_overview` computes
from today's date for each period. -/
def periodWindow (today : Date) : BudgetPeriod → Date × Date
  | .weekly =>
      let s := today.subDays today.weekday
      (s, s.addDays 6)
  | .monthly =>
      (⟨today.year, today.month, 1⟩,
        if today.month = 12 then
          (⟨today.year + 1, 1, 1⟩ : Date).subDays 1
        else (⟨today.year, today.month + 1, 1⟩ : Date).subDays 1)
  | .yearly => (⟨today.year, 1, 1⟩, ⟨today.year, 12, 31⟩)

/-! ### Handlers -/

def defaultColor : String := "#3B82F6"

/-- The Mongo filter of the spent-amount query in `get_budget_overview`
(category match, expense type, date between the window bounds, the date
bounds compared as strings). -/
def spentTxMatches (catId startIso endIso : String) (tx : TransactionDoc) : Bool :=
  tx.category_id == catId && tx.type == "gasto" &&
    (strLe startIso tx.date && strLe tx.date endIso)

/-- The `spent_amount` computed by `get_budget_overview` for one budget:
the sum of the amounts of the query's matches. -/
def spentAmount (db : DB) (today : Date) (period : BudgetPeriod)
    (catId : String) : ℚ :=
  let w := periodWindow today period
  ((db.transactions.filter
      (spentTxMatches catId w.1.isoformat w.2.isoformat)).map
      (fun tx => tx.amount)).sum

structure BudgetOverview where
  category_id : String
  category_name : String
  category_color : String
  period : String
  budget_amount : ℚ
  spent_amount : ℚ
  remaining_amount : ℚ
  percentage_used : ℚ
  is_over_budget : Bool
deriving DecidableEq, Repr

/-- `GET /budget-overview/{period}` (lines 228-277). -/
def get_budget_overview (today : Date) (period : BudgetPeriod) (db : DB) :
    List BudgetOverview :=
  (db.budgets.filter (fun b => b.period == period.value)).map (fun b =>
    let spent := spentAmount db today period b.category_id
    { category_id := b.category_id
      category_name := b.category_name
      category_color :=
        match db.categories.find? (fun c => c.id == b.category_id) with
        | some c => c.color
        | none => defaultColor
      period := b.period
      budget_amount := b.amount
      spent_amount := spent
      remaining_amount := b.amount - spent
      percentage_used := if b.amount > (0 : ℚ) then spent / b.amount * 100 else 0
      is_over_budget := decide (spent > b.amount) })

structure TransactionCreate where
  type : TransactionType
  amount : ℚ
  category_id : String
  description : String
  date : Date
deriving DecidableEq, Repr

/-- `POST /transactions` (lines 131-153).  Returns the new database
value and either the stored document or the raised HTTP error. -/
def create_transaction (db : DB) (req : TransactionCreate)
    (newId createdAt : String) : DB × Except ApiError TransactionDoc :=
  match db.categories.find? (fun c => c.id == req.category_id) with
  | none => (db, .error (.notFound "Categoría no encontrada"))
  | some cat =>
      let tx : TransactionDoc :=
        { id := newId
          type := req.type.value
          amount := req.amount
          category_id := req.category_id
          category_name := cat.name
          description := req.description
          date := req.date.isoformat
          created_at := createdAt }
      ({ db with transactions := db.transactions ++ [tx] }, .ok tx)

structure BudgetCreate where
  category_id : String
  amount : ℚ
  period : BudgetPeriod
deriving DecidableEq, Repr

/-- `POST /budgets` (lines 183-208): if a budget for the
(category_id, period) pair exists, update its amount in place and
return the re-read document; otherwise validate the category and
insert a new document. -/
def create_budget (db : DB) (req : BudgetCreate)
    (newId createdAt : String) : DB × Except ApiError BudgetDoc :=
  match db.budgets.find? (fun b =>
      b.category_id == req.category_id && b.period == req.period.value) with
  | some existing =>
      let budgets' := updateFirst (fun b => b.id == existing.id)
        (fun b => { b with amount := req.amount }) db.budgets
      let db' := { db with budgets := budgets' }
      match budgets'.find? (fun b => b.id == existing.id) with
      | some updated => (db', .ok updated)
      | none => (db', .error .serverError)
  | none =>
      match db.categories.find? (fun c => c.id == req.category_id) with
      | none => (db, .error (.notFound "Categoría no encontrada"))
      | some cat =>
          let b : BudgetDoc :=
            { id := newId
              category_id := req.category_id
              category_name := cat.name
              amount := req.amount
              period := req.period.value
              created_at := createdAt }
          ({ db with budgets := db.budgets ++ [b] }, .ok b)

/-! ### Spending analytics (`get_spending_by_category`, lines 308-349) -/

/-- The `start_date` of the analytics route: the raw period string is
compared against the weekly and monthly tokens, anything else falls to
the yearly branch. -/
def analyticsStart (today : Date) (period : String) : Date :=
  if period == "semanal" then today.subDays today.weekday
  else if period == "mensual" then ⟨today.year, today.month, 1⟩
  else ⟨today.year, 1, 1⟩

/-- The `$match` stage of the aggregation pipeline: expense type and
date at least the start date, with no upper bound. -/
def analyticsMatches (startIso : String) (tx : TransactionDoc) : Bool :=
  tx.type == "gasto" && strLe startIso tx.date

structure SpendingRow where
  category_id : String
  category_name : String
  color : String
  total_spent : ℚ
  transaction_count : Nat
deriving DecidableEq, Repr

/-- Descending order on aggregated totals, the `$sort` key. -/
def spendDescKey (a b : (String × String) × ℚ × Nat) : Prop :=
  b.2.1 ≤ a.2.1

instance : DecidableRel spendDescKey := fun a b =>
  inferInstanceAs (Decidable (b.2.1 ≤ a.2.1))

instance : IsTotal ((String × String) × ℚ × Nat) spendDescKey :=
  ⟨fun a b => le_total b.2.1 a.2.1⟩

instance : IsTrans ((String × String) × ℚ × Nat) spendDescKey :=
  ⟨fun _ _ _ h1 h2 => le_trans h2 h1⟩

/-- The `$group` compound key `{category_id, category_name}`. -/
def analyticsKey (tx : TransactionDoc) : String × String :=
  (tx.category_id, tx.category_name)

/-- The `$group` stage over the `$match`ed transactions: one entry per
distinct (category_id, category_name) key, with summed amount and row
count.  Mongo leaves group order unspecified; the model takes the keys
in order of last occurrence, which the `$sort` stage then overrides. -/
def analyticsGroups (matched : List TransactionDoc) :
    List ((String × String) × ℚ × Nat) :=
  ((matched.map analyticsKey).dedup).map (fun k =>
    let txs := matched.filter
      (fun tx => tx.category_id == k.1 && tx.category_name == k.2)
    (k, ((txs.map (fun tx => tx.amount)).sum, txs.length)))

/-- The response row built from one group: the category's current color
is re-attached by a point lookup, with the default hex if the category
is gone. -/
def analyticsRow (db : DB) (g : (String × String) × ℚ × Nat) :
    SpendingRow :=
  { category_id := g.1.1
    category_name := g.1.2
    color :=
      match db.categories.find? (fun c => c.id == g.1.1) with
      | some c => c.color
      | none => defaultColor
    total_spent := g.2.1
    transaction_count := g.2.2 }

/-- `GET /analytics/spending-by-category` body: `$match`, `$group`,
`$sort` by total descending (ties are in an unspecified order in
Mongo; the model picks one), then the color lookup per row. -/
def get_spending_by_category (today : Date) (period : String) (db : DB) :
    List SpendingRow :=
  let matched := db.transactions.filter
    (analyticsMatches (analyticsStart today period).isoformat)
  (List.insertionSort spendDescKey (analyticsGroups matched)).map
    (analyticsRow db)

/-- The route signature `period: Optional[str] = "mensual"`: an absent
query parameter falls back to the monthly token. -/
def get_spending_by_category_route (today : Date) (period : Option String)
    (db : DB) : List SpendingRow :=
  get_spending_by_category today (period.getD "mensual") db

/-- Lexicographic (chronological) order on year-month-day triples. -/
def dateLex (a b : Date) : Prop :=
  a.year < b.year ∨
    (a.year = b.year ∧
      (a.month < b.month ∨ (a.month = b.month ∧ a.day ≤ b.day)))

/-- The spec's wording of the overview transaction predicate: expense
type, matching category, ISO-8601 date string lexicographically within
the inclusive `[start, end]` window.  Stated separately from the
Mongo-query predicate `spentTxMatches` so that the two can be proved
to agree. -/
def specSpentMatches (catId startIso endIso : String)
    (tx : TransactionDoc) : Bool :=
  tx.type == "gasto" && tx.category_id == catId &&
    strLe startIso tx.date && strLe tx.date endIso

/-! ### Concrete sample data used by the witnesses and
counterexamples -/

/-- A Monday. -/
def exToday : Date := ⟨2026, 10, 12⟩

def wCat : CategoryDoc :=
  { id := "c1", name := "Comida", color := "#FF0000", type := "gasto",
    created_at := "t0" }

def wTx : TransactionDoc :=
  { id := "t1", type := "gasto", amount := 50, category_id := "c1",
    category_name := "Comida", description := "", date := "2026-10-12",
    created_at := "t0" }

def wBudget : BudgetDoc :=
  { id := "b1", category_id := "c1", category_name := "Comida",
    amount := 200, period := "mensual", created_at := "t0" }

def wDB : DB := ⟨[wCat], [wTx], [wBudget]⟩

/-- The single overview row `wDB` produces for the monthly period. -/
def wRow : BudgetOverview :=
  { category_id := "c1", category_name := "Comida",
    category_color := "#FF0000", period := "mensual",
    budget_amount := 200, spent_amount := 50, remaining_amount := 150,
    percentage_used := 25, is_over_budget := false }

/-- A database whose only budget has a negative amount (nothing stops a
client from posting one) and one in-window expense of 5. -/
def negDB : DB :=
  ⟨[], [{ id := "t1", type := "gasto", amount := 5, category_id := "c1",
          category_name := "Comida", description := "",
          date := "2026-10-12", created_at := "t0" }],
    [{ id := "b1", category_id := "c1", category_name := "Comida",
       amount := -10, period := "mensual", created_at := "t0" }]⟩

/-- A database with a budget whose category was deleted (the store
keeps dangling references by design) and no categories at all. -/
def danglingDB : DB :=
  ⟨[], [],
    [{ id := "b1", category_id := "ghost", category_name := "Comida",
       amount := 100, period := "mensual", created_at := "t0" }]⟩

def danglingReq : BudgetCreate :=
  { category_id := "ghost", amount := 120, period := .monthly }

/-- A transaction-creation request with a negative amount. -/
def negTxReq : TransactionCreate :=
  { type := .expense, amount := -5, category_id := "c1",
    description := "", date := ⟨2026, 10, 12⟩ }

def wBudgetReq : BudgetCreate :=
  { category_id := "c1", amount := 300, period := .monthly }

/-- A database with one category and nothing else. -/
def catOnlyDB : DB := ⟨[wCat], [], []⟩

/-- Transactions on both window boundary days of October 2026 and one
the day before the window. -/
def boundaryDB : DB :=
  ⟨[wCat],
    [{ id := "t1", type := "gasto", amount := 7, category_id := "c1",
       category_name := "Comida", description := "",
       date := "2026-10-01", created_at := "t0" },
     { id := "t2", type := "gasto", amount := 9, category_id := "c1",
       category_name := "Comida", description := "",
       date := "2026-10-31", created_at := "t0" },
     { id := "t3", type := "gasto", amount := 100, category_id := "c1",
       category_name := "Comida", description := "",
       date := "2026-09-30", created_at := "t0" }],
    [wBudget]⟩

/-- A transaction dated in the future relative to `exToday`; the
analytics window has no upper bound, so it is still aggregated. -/
def futureTx : TransactionDoc :=
  { id := "t9", type := "gasto", amount := 42, category_id := "c1",
    category_name := "Comida", description := "", date := "2027-01-01",
    created_at := "t0" }

def futureDB : DB := ⟨[wCat], [futureTx], []⟩

/-- The overview row of `boundaryDB`: both boundary transactions are
counted, the out-of-window one is not. -/
def boundaryRow : BudgetOverview :=
  { category_id := "c1", category_name := "Comida",
    category_color := "#FF0000", period := "mensual",
    budget_amount := 200, spent_amount := 16, remaining_amount := 184,
    percentage_used := 8, is_over_budget := false }


theorem daysInMonth_pos (y m : Nat) : 1 ≤ daysInMonth y m := by
  unfold daysInMonth
  split
  · split <;> omega
  · split <;> omega

theorem daysInMonth_le (y m : Nat) : daysInMonth y m ≤ 31 := by
  unfold daysInMonth
  split
  · split <;> omega
  · split <;> omega

set_option maxHeartbeats 1000000 in
theorem daysBeforeYear_succ (y : Nat) (hy : 1 ≤ y) :
    daysBeforeYear (y + 1) =
      daysBeforeYear y + (if isLeap y then 366 else 365) := by
  obtain ⟨k, rfl⟩ := Nat.exists_eq_add_of_le hy
  by_cases hL : isLeap (1 + k) = true
  · rw [if_pos hL]
    simp only [isLeap, Bool.or_eq_true, Bool.and_eq_true, beq_iff_eq,
      bne_iff_ne, ne_eq] at hL
    unfold daysBeforeYear
    omega
  · rw [if_neg hL]
    simp only [isLeap, Bool.or_eq_true, Bool.and_eq_true, beq_iff_eq,
      bne_iff_ne, ne_eq, not_or, not_and, not_not] at hL
    unfold daysBeforeYear
    omega

theorem daysBeforeMonth_12_add (y : Nat) :
    daysBeforeMonth y 12 + 31 = if isLeap y then 366 else 365 := by
  by_cases h : isLeap y = true <;>
    simp [daysBeforeMonth, daysInMonth, h]

theorem daysBeforeMonth_succ (y m : Nat) (hm : 1 ≤ m) :
    daysBeforeMonth y (m + 1) = daysBeforeMonth y m + daysInMonth y m := by
  obtain ⟨m', rfl⟩ := Nat.exists_eq_add_of_le hm
  simp [daysBeforeMonth, Nat.add_comm 1 m']

theorem toOrdinal_pos (d : Date) (hv : d.Valid) : 1 ≤ d.toOrdinal := by
  obtain ⟨y, m, day⟩ := d
  simp only [Date.Valid] at hv
  simp only [Date.toOrdinal]
  omega

theorem toOrdinal_prev (d : Date) (hv : d.Valid) (h2 : 2 ≤ d.toOrdinal) :
    d.prev.Valid ∧ d.prev.toOrdinal + 1 = d.toOrdinal := by
  obtain ⟨y, m, day⟩ := d
  simp only [Date.Valid] at hv
  simp only [Date.toOrdinal] at h2
  obtain ⟨hy, hm1, hm2, hd1, hd2⟩ := hv
  simp only [Date.prev]
  by_cases hday : 2 ≤ day
  · rw [if_pos hday]
    simp only [Date.Valid, Date.toOrdinal]
    omega
  · rw [if_neg hday]
    have hday1 : day = 1 := by omega
    by_cases hmon : 2 ≤ m
    · rw [if_pos hmon]
      simp only [Date.Valid, Date.toOrdinal]
      have hpos := daysInMonth_pos y (m - 1)
      have hsplit : daysBeforeMonth y m =
          daysBeforeMonth y (m - 1) + daysInMonth y (m - 1) := by
        have e : m = (m - 1) + 1 := by omega
        conv_lhs => rw [e]
        rw [daysBeforeMonth_succ y (m - 1) (by omega)]
      omega
    · rw [if_neg hmon]
      have hmon1 : m = 1 := by omega
      subst hmon1 hday1
      have hbm : daysBeforeMonth y 1 = 0 := rfl
      have hyge : 2 ≤ y := by
        by_contra hc
        have hy1 : y = 1 := by omega
        subst hy1
        have hz : daysBeforeYear 1 = 0 := rfl
        omega
      have h31 : daysInMonth (y - 1) 12 = 31 := by
        unfold daysInMonth; norm_num
      simp only [Date.Valid, Date.toOrdinal]
      have hstep := daysBeforeYear_succ (y - 1) (by omega)
      have h12 := daysBeforeMonth_12_add (y - 1)
      have e : y - 1 + 1 = y := by omega
      rw [e] at hstep
      by_cases hL : isLeap (y - 1) = true
      · rw [if_pos hL] at hstep h12; omega
      · rw [if_neg hL] at hstep h12; omega

theorem toOrdinal_next (d : Date) (hv : d.Valid) :
    d.next.Valid ∧ d.next.toOrdinal = d.toOrdinal + 1 := by
  obtain ⟨y, m, day⟩ := d
  simp only [Date.Valid] at hv
  obtain ⟨hy, hm1, hm2, hd1, hd2⟩ := hv
  simp only [Date.next]
  by_cases hday : day < daysInMonth y m
  · rw [if_pos hday]
    simp only [Date.Valid, Date.toOrdinal]
    omega
  · rw [if_neg hday]
    have hdeq : day = daysInMonth y m := by omega
    by_cases hmon : m < 12
    · rw [if_pos hmon]
      have hpos := daysInMonth_pos y (m + 1)
      have hsplit := daysBeforeMonth_succ y m hm1
      simp only [Date.Valid, Date.toOrdinal]
      omega
    · rw [if_neg hmon]
      have hm12 : m = 12 := by omega
      subst hm12
      have h31 : daysInMonth y 12 = 31 := by
        unfold daysInMonth; norm_num
      have hstep := daysBeforeYear_succ y hy
      have h12 := daysBeforeMonth_12_add y
      have hbm : daysBeforeMonth (y + 1) 1 = 0 := rfl
      simp only [Date.Valid, Date.toOrdinal]
      refine ⟨⟨by omega, by omega, by omega, by omega, daysInMonth_pos _ _⟩, ?_⟩
      by_cases hL : isLeap y = true
      · rw [if_pos hL] at hstep h12; omega
      · rw [if_neg hL] at hstep h12; omega

theorem subDays_spec (d : Date) (k : Nat) (hv : d.Valid)
    (hk : k < d.toOrdinal) :
    (d.subDays k).Valid ∧ (d.subDays k).toOrdinal + k = d.toOrdinal := by
  induction k with
  | zero => exact ⟨hv, rfl⟩
  | succ n ih =>
    obtain ⟨ihv, iho⟩ := ih (by omega)
    have hstep := toOrdinal_prev (d.subDays n) ihv (by omega)
    exact ⟨hstep.1, by simp only [Date.subDays]; omega⟩

theorem addDays_spec (d : Date) (k : Nat) (hv : d.Valid) :
    (d.addDays k).Valid ∧ (d.addDays k).toOrdinal = d.toOrdinal + k := by
  induction k with
  | zero => exact ⟨hv, rfl⟩
  | succ n ih =>
    obtain ⟨ihv, iho⟩ := ih
    have hstep := toOrdinal_next (d.addDays n) ihv
    exact ⟨hstep.1, by simp only [Date.addDays]; omega⟩

theorem weekday_lt_toOrdinal (d : Date) (hv : d.Valid) :
    d.weekday < d.toOrdinal := by
  have h1 := toOrdinal_pos d hv
  unfold Date.weekday
  omega
theorem lexLe_refl (l : List Char) : lexLe l l = true := by
  induction l with
  | nil => rfl
  | cons a as ih => simp [lexLe, ih]

theorem strLe_refl (s : String) : strLe s s = true := lexLe_refl s.data


/-! ### Lexicographic order on zero-padded ISO strings agrees with
date order

The spec notes the string comparison in the Mongo queries is valid
only because the dates are zero-padded ISO strings.  The lemmas below
prove that: for dates within Python's year range (at most 9999),
chronological order implies lexicographic order of the `isoformat`
strings. -/

theorem digitChar_mod (n : Nat) : digitChar (n % 10) = digitChar n := by
  unfold digitChar
  rw [Nat.mod_mod_of_dvd n (dvd_refl 10)]

theorem digitChar_le_digitChar (i j : Nat) (h : i % 10 ≤ j % 10) :
    charLe (digitChar i) (digitChar j) = true := by
  have aux : ∀ a b : Fin 10, a.val ≤ b.val →
      charLe (digitChar a.val) (digitChar b.val) = true := by decide
  have hi : i % 10 < 10 := Nat.mod_lt _ (by norm_num)
  have hj : j % 10 < 10 := Nat.mod_lt _ (by norm_num)
  have := aux ⟨i % 10, hi⟩ ⟨j % 10, hj⟩ h
  rwa [digitChar_mod i, digitChar_mod j] at this

theorem digitChar_inj (i j : Nat) (h : digitChar i = digitChar j) :
    i % 10 = j % 10 := by
  have aux : ∀ a b : Fin 10, digitChar a.val = digitChar b.val → a = b := by
    decide
  have hi : i % 10 < 10 := Nat.mod_lt _ (by norm_num)
  have hj : j % 10 < 10 := Nat.mod_lt _ (by norm_num)
  have hm : digitChar (i % 10) = digitChar (j % 10) := by
    rwa [digitChar_mod i, digitChar_mod j]
  have heq := aux ⟨i % 10, hi⟩ ⟨j % 10, hj⟩ hm
  exact congrArg Fin.val heq

theorem lexLe_append_left (p s t : List Char) :
    lexLe (p ++ s) (p ++ t) = lexLe s t := by
  induction p with
  | nil => rfl
  | cons c cs ih => simp [lexLe, ih]

theorem pad2_lexLe_lt (x y : Nat) (hxy : x < y) (hy : y ≤ 99)
    (s t : List Char) : lexLe (pad2 x ++ s) (pad2 y ++ t) = true := by
  unfold pad2
  simp only [List.cons_append, List.nil_append, lexLe]
  by_cases h1 : digitChar (x / 10) = digitChar (y / 10)
  · rw [if_pos h1]
    have hda := digitChar_inj _ _ h1
    have hlast : ¬ digitChar x = digitChar y := by
      intro hc
      have := digitChar_inj _ _ hc
      omega
    rw [if_neg hlast]
    exact digitChar_le_digitChar _ _ (by omega)
  · rw [if_neg h1]
    exact digitChar_le_digitChar _ _ (by omega)

theorem pad4_lexLe_lt (x y : Nat) (hxy : x < y) (hy : y ≤ 9999)
    (s t : List Char) : lexLe (pad4 x ++ s) (pad4 y ++ t) = true := by
  unfold pad4
  simp only [List.cons_append, List.nil_append, lexLe]
  by_cases h3 : digitChar (x / 1000) = digitChar (y / 1000)
  · have hd3 := digitChar_inj _ _ h3
    rw [if_pos h3]
    by_cases h2 : digitChar (x / 100) = digitChar (y / 100)
    · have hd2 := digitChar_inj _ _ h2
      rw [if_pos h2]
      by_cases h1 : digitChar (x / 10) = digitChar (y / 10)
      · have hd1 := digitChar_inj _ _ h1
        rw [if_pos h1]
        have hlast : ¬ digitChar x = digitChar y := by
          intro hc
          have := digitChar_inj _ _ hc
          omega
        rw [if_neg hlast]
        exact digitChar_le_digitChar _ _ (by omega)
      · rw [if_neg h1]
        exact digitChar_le_digitChar _ _ (by omega)
    · rw [if_neg h2]
      exact digitChar_le_digitChar _ _ (by omega)
  · rw [if_neg h3]
    exact digitChar_le_digitChar _ _ (by omega)

theorem daysBeforeMonth_le_succ (y n : Nat) :
    daysBeforeMonth y n ≤ daysBeforeMonth y (n + 1) := by
  rcases Nat.eq_zero_or_pos n with h0 | h1
  · subst h0; simp [daysBeforeMonth]
  · rw [daysBeforeMonth_succ y n h1]; omega

theorem daysBeforeMonth_mono (y : Nat) {m1 m2 : Nat}
    (h : m1 ≤ m2) : daysBeforeMonth y m1 ≤ daysBeforeMonth y m2 := by
  induction h with
  | refl => exact le_refl _
  | @step n _ ih => exact le_trans ih (daysBeforeMonth_le_succ y n)

theorem daysBeforeMonth_day_bound (y m day : Nat) (hm1 : 1 ≤ m)
    (hm2 : m ≤ 12) (hday : day ≤ daysInMonth y m) :
    daysBeforeMonth y m + day ≤ if isLeap y then 366 else 365 := by
  have h1 : daysBeforeMonth y m + day ≤ daysBeforeMonth y (m + 1) := by
    rw [daysBeforeMonth_succ y m hm1]
    omega
  have h2 : daysBeforeMonth y (m + 1) ≤ daysBeforeMonth y 13 :=
    daysBeforeMonth_mono y (by omega)
  have h3 : daysBeforeMonth y 13 = daysBeforeMonth y 12 + daysInMonth y 12 :=
    daysBeforeMonth_succ y 12 (by omega)
  have h4 : daysInMonth y 12 = 31 := by unfold daysInMonth; norm_num
  have h5 := daysBeforeMonth_12_add y
  by_cases hL : isLeap y = true
  · rw [if_pos hL] at h5 ⊢; omega
  · rw [if_neg hL] at h5 ⊢; omega

theorem daysBeforeYear_le_succ (n : Nat) :
    daysBeforeYear n ≤ daysBeforeYear (n + 1) := by
  rcases Nat.eq_zero_or_pos n with h0 | h1
  · subst h0; decide
  · have := daysBeforeYear_succ n h1
    by_cases hL : isLeap n = true
    · rw [if_pos hL] at this; omega
    · rw [if_neg hL] at this; omega

theorem daysBeforeYear_mono {y1 y2 : Nat} (h : y1 ≤ y2) :
    daysBeforeYear y1 ≤ daysBeforeYear y2 := by
  induction h with
  | refl => exact le_refl _
  | @step n _ ih => exact le_trans ih (daysBeforeYear_le_succ n)

theorem toOrdinal_lt_of_dateLt (a b : Date) (hva : a.Valid) (hvb : b.Valid)
    (h : a.year < b.year ∨
      (a.year = b.year ∧
        (a.month < b.month ∨ (a.month = b.month ∧ a.day < b.day)))) :
    a.toOrdinal < b.toOrdinal := by
  obtain ⟨ya, ma, da⟩ := a
  obtain ⟨yb, mb, dbd⟩ := b
  simp only [Date.Valid] at hva hvb
  have h' : ya < yb ∨ (ya = yb ∧ (ma < mb ∨ (ma = mb ∧ da < dbd))) := h
  simp only [Date.toOrdinal]
  rcases h' with hy | ⟨hyeq, hm | ⟨hmeq, hd⟩⟩
  · have hbound := daysBeforeMonth_day_bound ya ma da hva.2.1 hva.2.2.1
      hva.2.2.2.2
    have hsucc := daysBeforeYear_succ ya hva.1
    have hmono := daysBeforeYear_mono (show ya + 1 ≤ yb by omega)
    by_cases hL : isLeap ya = true
    · rw [if_pos hL] at hbound hsucc; omega
    · rw [if_neg hL] at hbound hsucc; omega
  · subst hyeq
    have h1 : daysBeforeMonth ya ma + da ≤ daysBeforeMonth ya (ma + 1) := by
      rw [daysBeforeMonth_succ ya ma hva.2.1]
      have := hva.2.2.2.2
      omega
    have h2 : daysBeforeMonth ya (ma + 1) ≤ daysBeforeMonth ya mb :=
      daysBeforeMonth_mono ya (by omega)
    have := hvb.2.2.2.1
    omega
  · subst hyeq hmeq
    omega

theorem dateLex_of_toOrdinal_le (a b : Date) (hva : a.Valid) (hvb : b.Valid)
    (h : a.toOrdinal ≤ b.toOrdinal) : dateLex a b := by
  by_contra hc
  have hlt : b.year < a.year ∨
      (b.year = a.year ∧
        (b.month < a.month ∨ (b.month = a.month ∧ b.day < a.day))) := by
    unfold dateLex at hc
    omega
  have := toOrdinal_lt_of_dateLt b a hvb hva hlt
  omega

theorem iso_strLe (a b : Date) (hby : b.year ≤ 9999) (hbm : b.month ≤ 99)
    (hbd : b.day ≤ 99) (h : dateLex a b) :
    strLe a.isoformat b.isoformat = true := by
  obtain ⟨ya, ma, da⟩ := a
  obtain ⟨yb, mb, dbd⟩ := b
  have h' : ya < yb ∨ (ya = yb ∧ (ma < mb ∨ (ma = mb ∧ da ≤ dbd))) := h
  have hby' : yb ≤ 9999 := hby
  have hbm' : mb ≤ 99 := hbm
  have hbd' : dbd ≤ 99 := hbd
  show lexLe (pad4 ya ++ '-' :: pad2 ma ++ '-' :: pad2 da)
      (pad4 yb ++ '-' :: pad2 mb ++ '-' :: pad2 dbd) = true
  rcases h' with hy | ⟨hyeq, hm | ⟨hmeq, hd⟩⟩
  · exact pad4_lexLe_lt ya yb hy hby _ _
  · subst hyeq
    rw [show pad4 ya ++ '-' :: pad2 ma ++ '-' :: pad2 da =
        (pad4 ya ++ ['-']) ++ (pad2 ma ++ '-' :: pad2 da) by simp,
      show pad4 ya ++ '-' :: pad2 mb ++ '-' :: pad2 dbd =
        (pad4 ya ++ ['-']) ++ (pad2 mb ++ '-' :: pad2 dbd) by simp,
      lexLe_append_left]
    exact pad2_lexLe_lt ma mb hm hbm _ _
  · subst hyeq hmeq
    rcases Nat.lt_or_ge da dbd with hlt | hge
    · rw [show pad4 ya ++ '-' :: pad2 ma ++ '-' :: pad2 da =
          (pad4 ya ++ '-' :: pad2 ma ++ ['-']) ++ pad2 da by simp,
        show pad4 ya ++ '-' :: pad2 ma ++ '-' :: pad2 dbd =
          (pad4 ya ++ '-' :: pad2 ma ++ ['-']) ++ pad2 dbd by simp,
        lexLe_append_left]
      have := pad2_lexLe_lt da dbd hlt hbd [] []
      simpa using this
    · have hdeq : da = dbd := by omega
      subst hdeq
      exact lexLe_refl _

theorem prev_year_le (d : Date) : d.prev.year ≤ d.year := by
  unfold Date.prev
  split_ifs <;> simp

theorem subDays_year_le (d : Date) (k : Nat) :
    (d.subDays k).year ≤ d.year := by
  induction k with
  | zero => exact le_refl _
  | succ n ih => exact le_trans (prev_year_le (d.subDays n)) ih

theorem next_year_le (d : Date) : d.next.year ≤ d.year + 1 := by
  unfold Date.next
  split_ifs <;> simp

theorem addDays_year_le (d : Date) (k : Nat) :
    (d.addDays k).year ≤ d.year + k := by
  induction k with
  | zero => exact le_refl _
  | succ n ih =>
    have := next_year_le (d.addDays n)
    simp only [Date.addDays]
    omega

theorem periodWindow_monthly_eq (today : Date) (hv : today.Valid) :
    periodWindow today .monthly =
      (⟨today.year, today.month, 1⟩,
       ⟨today.year, today.month, daysInMonth today.year today.month⟩) := by
  obtain ⟨y, m, day⟩ := today
  simp only [Date.Valid] at hv
  simp only [periodWindow]
  by_cases h12 : m = 12
  · subst h12
    rw [if_pos rfl]
    have hdim : daysInMonth y 12 = 31 := by unfold daysInMonth; norm_num
    simp [Date.subDays, Date.prev, hdim]
  · rw [if_neg h12]
    have hm1 : 1 ≤ m := hv.2.1
    simp only [Date.subDays, Date.prev]
    rw [if_neg (by simp), if_pos (by simp; omega)]
    simp

theorem periodWindow_yearly_eq (today : Date) :
    periodWindow today .yearly =
      (⟨today.year, 1, 1⟩, ⟨today.year, 12, 31⟩) := rfl

/-- Validity, chronological order and string order of the period
window, for any valid current date not too close to Python's year
9999 cap (past which Python's own date arithmetic raises). -/
theorem window_valid_ordered (today : Date) (hv : today.Valid)
    (hy : today.year ≤ 9992) (p : BudgetPeriod) :
    (periodWindow today p).1.Valid ∧ (periodWindow today p).2.Valid ∧
      strLe (periodWindow today p).1.isoformat
        (periodWindow today p).2.isoformat = true := by
  have hvy : 1 ≤ today.year ∧ 1 ≤ today.month ∧ today.month ≤ 12 ∧
      1 ≤ today.day ∧ today.day ≤ daysInMonth today.year today.month := hv
  cases p with
  | weekly =>
    have hwlt := weekday_lt_toOrdinal today hv
    have hs := subDays_spec today today.weekday hv hwlt
    have he := addDays_spec (today.subDays today.weekday) 6 hs.1
    have hord : (today.subDays today.weekday).toOrdinal ≤
        ((today.subDays today.weekday).addDays 6).toOrdinal := by omega
    have hlex := dateLex_of_toOrdinal_le _ _ hs.1 he.1 hord
    have heyr : ((today.subDays today.weekday).addDays 6).year ≤ 9999 := by
      have h1 := addDays_year_le (today.subDays today.weekday) 6
      have h2 := subDays_year_le today today.weekday
      omega
    have hem : ((today.subDays today.weekday).addDays 6).month ≤ 99 := by
      have := he.1.2.2.1
      omega
    have hed : ((today.subDays today.weekday).addDays 6).day ≤ 99 := by
      have h1 := he.1.2.2.2.2
      have h2 := daysInMonth_le ((today.subDays today.weekday).addDays 6).year
        ((today.subDays today.weekday).addDays 6).month
      omega
    simp only [periodWindow]
    exact ⟨hs.1, he.1, iso_strLe _ _ heyr hem hed hlex⟩
  | monthly =>
    rw [periodWindow_monthly_eq today hv]
    have hdim1 := daysInMonth_pos today.year today.month
    have hdim31 := daysInMonth_le today.year today.month
    refine ⟨⟨hvy.1, hvy.2.1, hvy.2.2.1, le_refl _, hdim1⟩,
      ⟨hvy.1, hvy.2.1, hvy.2.2.1, hdim1, le_refl _⟩, ?_⟩
    apply iso_strLe
    · show today.year ≤ 9999; omega
    · show today.month ≤ 99; omega
    · show daysInMonth today.year today.month ≤ 99; omega
    · exact Or.inr ⟨rfl, Or.inr ⟨rfl, hdim1⟩⟩
  | yearly =>
    rw [periodWindow_yearly_eq]
    have h1 : daysInMonth today.year 1 = 31 := by unfold daysInMonth; norm_num
    have h12 : daysInMonth today.year 12 = 31 := by unfold daysInMonth; norm_num
    refine ⟨⟨hvy.1, by norm_num, by norm_num, by norm_num, by norm_num [h1]⟩,
      ⟨hvy.1, by norm_num, by norm_num, by norm_num, by norm_num [h12]⟩, ?_⟩
    apply iso_strLe
    · show today.year ≤ 9999; omega
    · show (12 : Nat) ≤ 99; norm_num
    · show (31 : Nat) ≤ 99; norm_num
    · exact Or.inr ⟨rfl, Or.inl (by norm_num)⟩

/-! ### Claim theorems -/

/-- Helper: the overview of the sample database evaluates to the single
expected row. -/
theorem wOverview_eq : get_budget_overview exToday .monthly wDB = [wRow] := by
  simp +decide [get_budget_overview, spentAmount, wDB, wBudget, wTx, wCat,
    wRow, exToday, defaultColor]
  norm_num

/-- C1: every row returned by GET /budget-overview/{period} satisfies
remaining_amount = budget_amount - spent_amount, and is_over_budget
holds iff spent_amount > budget_amount. -/
theorem overview_remaining_and_over_budget (today : Date)
    (period : BudgetPeriod) (db : DB) (row : BudgetOverview)
    (hrow : row ∈ get_budget_overview today period db) :
    row.remaining_amount = row.budget_amount - row.spent_amount ∧
      (row.is_over_budget = true ↔ row.spent_amount > row.budget_amount) := by
  simp only [get_budget_overview, List.mem_map] at hrow
  obtain ⟨b, hb, rfl⟩ := hrow
  exact ⟨rfl, decide_eq_true_iff⟩

/-- Witness for C1: the sample row of `wDB`. -/
theorem overview_remaining_and_over_budget_witness :
    wRow.remaining_amount = wRow.budget_amount - wRow.spent_amount ∧
      (wRow.is_over_budget = true ↔ wRow.spent_amount > wRow.budget_amount) :=
  overview_remaining_and_over_budget exToday .monthly wDB wRow
    (by rw [wOverview_eq]; exact List.mem_singleton.mpr rfl)

/-- C2: the budget-overview windows anchored on today: weekly starts at
today minus its weekday, which is a Monday on or before today, and ends
six days later; monthly runs from day 1 to the last day of the current
month (including the December branch); yearly from Jan 1 to Dec 31. -/
theorem periodWindow_spec (today : Date) (hv : today.Valid) :
    ((periodWindow today .weekly).1 = today.subDays today.weekday ∧
      (periodWindow today .weekly).1.Valid ∧
      (periodWindow today .weekly).1.weekday = 0 ∧
      (periodWindow today .weekly).2 =
        (periodWindow today .weekly).1.addDays 6 ∧
      (periodWindow today .weekly).2.toOrdinal =
        (periodWindow today .weekly).1.toOrdinal + 6 ∧
      (periodWindow today .weekly).1.toOrdinal ≤ today.toOrdinal ∧
      today.toOrdinal ≤ (periodWindow today .weekly).2.toOrdinal) ∧
    periodWindow today .monthly =
      (⟨today.year, today.month, 1⟩,
        ⟨today.year, today.month, daysInMonth today.year today.month⟩) ∧
    periodWindow today .yearly = (⟨today.year, 1, 1⟩, ⟨today.year, 12, 31⟩) := by
  refine ⟨?_, periodWindow_monthly_eq today hv, rfl⟩
  have hwlt := weekday_lt_toOrdinal today hv
  have hs := subDays_spec today today.weekday hv hwlt
  have he := addDays_spec (today.subDays today.weekday) 6 hs.1
  have hw : periodWindow today .weekly =
      (today.subDays today.weekday,
        (today.subDays today.weekday).addDays 6) := rfl
  rw [hw]
  dsimp only
  have hwd6 : today.weekday < 7 := Nat.mod_lt _ (by norm_num)
  refine ⟨rfl, hs.1, ?_, rfl, by omega, by omega, by omega⟩
  show ((today.subDays today.weekday).toOrdinal + 6) % 7 = 0
  have hwd : today.weekday = (today.toOrdinal + 6) % 7 := rfl
  omega

/-- Witness for C2 at a December date, exercising the year-rollover
branch of the monthly window. -/
theorem periodWindow_spec_witness :
    ((periodWindow ⟨2025, 12, 15⟩ .weekly).1 =
        Date.subDays ⟨2025, 12, 15⟩ (Date.weekday ⟨2025, 12, 15⟩) ∧
      (periodWindow ⟨2025, 12, 15⟩ .weekly).1.Valid ∧
      (periodWindow ⟨2025, 12, 15⟩ .weekly).1.weekday = 0 ∧
      (periodWindow ⟨2025, 12, 15⟩ .weekly).2 =
        (periodWindow ⟨2025, 12, 15⟩ .weekly).1.addDays 6 ∧
      (periodWindow ⟨2025, 12, 15⟩ .weekly).2.toOrdinal =
        (periodWindow ⟨2025, 12, 15⟩ .weekly).1.toOrdinal + 6 ∧
      (periodWindow ⟨2025, 12, 15⟩ .weekly).1.toOrdinal ≤
        (⟨2025, 12, 15⟩ : Date).toOrdinal ∧
      (⟨2025, 12, 15⟩ : Date).toOrdinal ≤
        (periodWindow ⟨2025, 12, 15⟩ .weekly).2.toOrdinal) ∧
    periodWindow ⟨2025, 12, 15⟩ .monthly =
      (⟨2025, 12, 1⟩, ⟨2025, 12, daysInMonth 2025 12⟩) ∧
    periodWindow ⟨2025, 12, 15⟩ .yearly =
      (⟨2025, 1, 1⟩, ⟨2025, 12, 31⟩) :=
  periodWindow_spec ⟨2025, 12, 15⟩ (by decide)

/-- C5 counterexample: a budget with the (reachable) negative amount
-10 and in-window spend 5 yields percentage_used = 0, yet its
budget_amount is nonzero and spent/budget times 100 is -50, not 0.
The claim's "nonzero" case is therefore wrong for negative amounts. -/
theorem percentage_used_counterexample :
    (get_budget_overview exToday .monthly negDB).map
        (fun r => (r.budget_amount, r.spent_amount, r.percentage_used))
      = [((-10 : ℚ), 5, 0)] ∧
    ¬ ((5 : ℚ) / (-10) * 100 = 0) := by
  refine ⟨?_, by norm_num⟩
  simp +decide [get_budget_overview, spentAmount, negDB, exToday,
    defaultColor]

/-- C5 amended: percentage_used is spent/budget times 100 when
budget_amount is positive, and 0 when budget_amount is nonpositive (in
particular when it is 0, so no division by zero is performed). -/
theorem percentage_used_amended (today : Date) (period : BudgetPeriod)
    (db : DB) (row : BudgetOverview)
    (hrow : row ∈ get_budget_overview today period db) :
    (0 < row.budget_amount →
        row.percentage_used = row.spent_amount / row.budget_amount * 100) ∧
    (row.budget_amount ≤ 0 → row.percentage_used = 0) := by
  simp only [get_budget_overview, List.mem_map] at hrow
  obtain ⟨b, hb, rfl⟩ := hrow
  constructor
  · intro h
    show (if b.amount > (0 : ℚ) then
        spentAmount db today period b.category_id / b.amount * 100 else 0) =
      spentAmount db today period b.category_id / b.amount * 100
    rw [if_pos h]
  · intro h
    show (if b.amount > (0 : ℚ) then
        spentAmount db today period b.category_id / b.amount * 100 else 0) = 0
    rw [if_neg (not_lt.mpr h)]

/-- Witness for the amended C5: the sample row has positive budget and
percentage 50/200*100 = 25. -/
theorem percentage_used_amended_witness :
    wRow.percentage_used = wRow.spent_amount / wRow.budget_amount * 100 :=
  (percentage_used_amended exToday .monthly wDB wRow
    (by rw [wOverview_eq]; exact List.mem_singleton.mpr rfl)).1
    (by norm_num [wRow])

/-- C10: GET /analytics/spending-by-category accepts any period string:
anything other than the weekly and monthly tokens falls through to the
yearly window start (Jan 1), and an absent parameter defaults to the
monthly token. -/
theorem analytics_period_fallback (today : Date) (db : DB) :
    (∀ p : String, p ≠ "semanal" → p ≠ "mensual" →
        analyticsStart today p = ⟨today.year, 1, 1⟩) ∧
    get_spending_by_category_route today none db =
      get_spending_by_category today "mensual" db ∧
    (∀ p : String, get_spending_by_category_route today (some p) db =
        get_spending_by_category today p db) := by
  refine ⟨?_, rfl, fun p => rfl⟩
  intro p h1 h2
  simp [analyticsStart, h1, h2]

/-- Witness for C10: an arbitrary unrecognized period string gets the
yearly window start. -/
theorem analytics_period_fallback_witness :
    analyticsStart exToday "quarterly" = ⟨2026, 1, 1⟩ :=
  (analytics_period_fallback exToday wDB).1 "quarterly" (by decide)
    (by decide)

/-- C7 counterexample: `danglingDB` holds a budget whose category was
deleted.  POST /budgets for that same (category_id, period) pair takes
the update path before the category check, so it succeeds with no 404
even though the referenced category does not exist. -/
theorem create_budget_missing_category_counterexample :
    danglingDB.categories.find?
        (fun c => c.id == danglingReq.category_id) = none ∧
    (create_budget danglingDB danglingReq "nid" "t1").2 =
      .ok { id := "b1", category_id := "ghost", category_name := "Comida",
            amount := 120, period := "mensual", created_at := "t0" } := by
  constructor
  · rfl
  · simp +decide [create_budget, danglingDB, danglingReq, updateFirst]

/-- C7 amended: transaction creation always 404s on a missing category
and leaves the database unchanged; budget creation does so only when no
budget already exists for the (category_id, period) pair — the update
path skips the category check entirely. -/
theorem create_missing_category_amended (db : DB)
    (treq : TransactionCreate) (breq : BudgetCreate)
    (newId createdAt : String)
    (htcat : db.categories.find?
        (fun c => c.id == treq.category_id) = none)
    (hbcat : db.categories.find?
        (fun c => c.id == breq.category_id) = none)
    (hbpair : db.budgets.find? (fun b =>
        b.category_id == breq.category_id &&
        b.period == breq.period.value) = none) :
    create_transaction db treq newId createdAt =
      (db, .error (.notFound "Categoría no encontrada")) ∧
    create_budget db breq newId createdAt =
      (db, .error (.notFound "Categoría no encontrada")) := by
  constructor
  · unfold create_transaction
    rw [htcat]
  · unfold create_budget
    rw [hbpair, hbcat]

/-- Witness for the amended C7 on an empty database. -/
theorem create_missing_category_amended_witness :
    create_transaction ⟨[], [], []⟩ negTxReq "nid" "t1" =
      (⟨[], [], []⟩, .error (.notFound "Categoría no encontrada")) ∧
    create_budget ⟨[], [], []⟩ wBudgetReq "nid" "t1" =
      (⟨[], [], []⟩, .error (.notFound "Categoría no encontrada")) :=
  create_missing_category_amended ⟨[], [], []⟩ negTxReq wBudgetReq
    "nid" "t1" rfl rfl rfl

/-- C8 counterexample: POST /transactions performs no sign check, so a
request with amount -5 is stored with amount -5, which is not
positive. -/
theorem transaction_amount_counterexample :
    (create_transaction catOnlyDB negTxReq "nid" "t1").1.transactions.map
        (fun tx => tx.amount) = [(-5 : ℚ)] ∧
    ¬ ((0 : ℚ) < -5) := by
  refine ⟨?_, by norm_num⟩
  simp +decide [create_transaction, catOnlyDB, negTxReq, wCat]

/-- C8 amended: the stored transaction's amount is exactly the request
amount, sign included; positivity is not enforced anywhere. -/
theorem transaction_amount_stored_as_given (db : DB)
    (req : TransactionCreate) (newId createdAt : String)
    (cat : CategoryDoc)
    (hfind : db.categories.find?
        (fun c => c.id == req.category_id) = some cat) :
    ∃ tx : TransactionDoc,
      (create_transaction db req newId createdAt).2 = .ok tx ∧
      tx.amount = req.amount ∧
      (create_transaction db req newId createdAt).1.transactions =
        db.transactions ++ [tx] := by
  unfold create_transaction
  rw [hfind]
  exact ⟨_, rfl, rfl, rfl⟩

/-- Witness for the amended C8: the negative-amount request is stored
with its own (negative) amount. -/
theorem transaction_amount_stored_as_given_witness :
    ∃ tx : TransactionDoc,
      (create_transaction catOnlyDB negTxReq "nid" "t1").2 = .ok tx ∧
      tx.amount = negTxReq.amount ∧
      (create_transaction catOnlyDB negTxReq "nid" "t1").1.transactions =
        catOnlyDB.transactions ++ [tx] :=
  transaction_amount_stored_as_given catOnlyDB negTxReq "nid" "t1" wCat
    (by rfl)

theorem updateFirst_length {α : Type} (p : α → Bool) (f : α → α)
    (l : List α) : (updateFirst p f l).length = l.length := by
  induction l with
  | nil => rfl
  | cons x xs ih =>
    unfold updateFirst
    split <;> simp [ih]

theorem updateFirst_filter_length {α : Type} (q p : α → Bool) (f : α → α)
    (hpf : ∀ a, p (f a) = p a) (l : List α) :
    ((updateFirst q f l).filter p).length = (l.filter p).length := by
  induction l with
  | nil => rfl
  | cons x xs ih =>
    unfold updateFirst
    by_cases hq : q x = true
    · rw [if_pos hq]
      cases hpx : p x <;>
        simp [List.filter_cons, hpf x, hpx]
    · rw [if_neg hq]
      cases hpx : p x <;>
        simp [List.filter_cons, hpx, ih]

/-- After `update_one` rewrote the amount of the first document with
`b0`'s id, re-reading by that id returns exactly `b0` with the new
amount, provided ids are unique (they are uuids). -/
theorem find?_updateFirst_of_mem (l : List BudgetDoc) (b0 : BudgetDoc)
    (amt : ℚ) (hmem : b0 ∈ l)
    (hnodup : (l.map (fun b => b.id)).Nodup) :
    (updateFirst (fun b => b.id == b0.id)
        (fun b => { b with amount := amt }) l).find?
      (fun b => b.id == b0.id) = some { b0 with amount := amt } := by
  induction l with
  | nil => cases hmem
  | cons x xs ih =>
    rw [List.map_cons, List.nodup_cons] at hnodup
    unfold updateFirst
    by_cases hq : (x.id == b0.id) = true
    · rw [if_pos hq]
      have hxb : x = b0 := by
        rcases List.mem_cons.mp hmem with h | h
        · exact h.symm
        · exfalso
          apply hnodup.1
          rw [beq_iff_eq.mp hq]
          exact List.mem_map_of_mem _ h
      subst hxb
      simp [List.find?]
    · rw [if_neg hq]
      have hb0xs : b0 ∈ xs := by
        rcases List.mem_cons.mp hmem with h | h
        · exact absurd (by rw [h]; simp) hq
        · exact h
      simp only [List.find?, hq]
      exact ih hb0xs hnodup.2

/-- The update path of `create_budget`: when a budget for the pair is
found, the handler rewrites that document's amount in place and
returns the re-read document. -/
theorem create_budget_update_path (db : DB) (req : BudgetCreate)
    (newId createdAt : String) (b0 : BudgetDoc)
    (hfind : db.budgets.find? (fun b =>
        b.category_id == req.category_id &&
        b.period == req.period.value) = some b0)
    (hnodup : (db.budgets.map (fun b => b.id)).Nodup) :
    create_budget db req newId createdAt =
      ({ db with
          budgets :=
            updateFirst (fun b => b.id == b0.id)
              (fun b => { b with amount := req.amount }) db.budgets },
        .ok { b0 with amount := req.amount }) := by
  have hmem : b0 ∈ db.budgets := List.mem_of_find?_eq_some hfind
  have hkey := find?_updateFirst_of_mem db.budgets b0 req.amount hmem hnodup
  unfold create_budget
  rw [hfind]
  dsimp only
  rw [hkey]

/-- C4: when the (category_id, period) pair already has exactly one
budget (and ids are unique, as uuids are), POST /budgets updates that
budget's amount in place and returns it; the budget list keeps its
length and the pair still has exactly one budget. -/
theorem create_budget_upsert (db : DB) (req : BudgetCreate)
    (newId createdAt : String)
    (hnodup : (db.budgets.map (fun b => b.id)).Nodup)
    (hcount : (db.budgets.filter (fun b =>
        b.category_id == req.category_id &&
        b.period == req.period.value)).length = 1) :
    ∃ b0 : BudgetDoc,
      db.budgets.find? (fun b =>
        b.category_id == req.category_id &&
        b.period == req.period.value) = some b0 ∧
      (create_budget db req newId createdAt).2 =
        .ok { b0 with amount := req.amount } ∧
      (create_budget db req newId createdAt).1.budgets.length =
        db.budgets.length ∧
      ((create_budget db req newId createdAt).1.budgets.filter (fun b =>
        b.category_id == req.category_id &&
        b.period == req.period.value)).length = 1 := by
  have hne : db.budgets.filter (fun b =>
      b.category_id == req.category_id &&
      b.period == req.period.value) ≠ [] := by
    intro h
    rw [h] at hcount
    simp at hcount
  obtain ⟨x, hx⟩ := List.exists_mem_of_ne_nil _ hne
  have hsome : (db.budgets.find? (fun b =>
      b.category_id == req.category_id &&
      b.period == req.period.value)).isSome = true :=
    List.find?_isSome.mpr
      ⟨x, (List.mem_filter.mp hx).1, (List.mem_filter.mp hx).2⟩
  obtain ⟨b0, hfind⟩ := Option.isSome_iff_exists.mp hsome
  have hmain := create_budget_update_path db req newId createdAt b0
    hfind hnodup
  refine ⟨b0, hfind, by rw [hmain], ?_, ?_⟩
  · rw [hmain]
    exact updateFirst_length _ _ _
  · rw [hmain]
    show ((updateFirst (fun b => b.id == b0.id)
        (fun b => { b with amount := req.amount }) db.budgets).filter
          (fun b => b.category_id == req.category_id &&
            b.period == req.period.value)).length = 1
    exact (updateFirst_filter_length (fun b => b.id == b0.id)
      (fun b => b.category_id == req.category_id &&
        b.period == req.period.value)
      (fun b => { b with amount := req.amount }) (fun a => rfl)
      db.budgets).trans hcount

/-- Witness for C4 at the sample database: the single budget for
(c1, monthly) is updated to the new amount 300. -/
theorem create_budget_upsert_witness :
    ∃ b0 : BudgetDoc,
      wDB.budgets.find? (fun b =>
        b.category_id == wBudgetReq.category_id &&
        b.period == wBudgetReq.period.value) = some b0 ∧
      (create_budget wDB wBudgetReq "nid" "t1").2 =
        .ok { b0 with amount := wBudgetReq.amount } ∧
      (create_budget wDB wBudgetReq "nid" "t1").1.budgets.length =
        wDB.budgets.length ∧
      ((create_budget wDB wBudgetReq "nid" "t1").1.budgets.filter (fun b =>
        b.category_id == wBudgetReq.category_id &&
        b.period == wBudgetReq.period.value)).length = 1 :=
  create_budget_upsert wDB wBudgetReq "nid" "t1" (by decide) (by decide)

/-- C9: the update path of POST /budgets changes only the amount of
the found budget document; id, category_id, category_name, period and
created_at of the returned (re-read) document are those of the
existing one. -/
theorem create_budget_update_frame (db : DB) (req : BudgetCreate)
    (newId createdAt : String) (b0 : BudgetDoc)
    (hfind : db.budgets.find? (fun b =>
        b.category_id == req.category_id &&
        b.period == req.period.value) = some b0)
    (hnodup : (db.budgets.map (fun b => b.id)).Nodup) :
    ∃ ret : BudgetDoc,
      (create_budget db req newId createdAt).2 = .ok ret ∧
      ret.amount = req.amount ∧
      ret.id = b0.id ∧ ret.category_id = b0.category_id ∧
      ret.category_name = b0.category_name ∧ ret.period = b0.period ∧
      ret.created_at = b0.created_at := by
  have hmain := create_budget_update_path db req newId createdAt b0
    hfind hnodup
  exact ⟨{ b0 with amount := req.amount }, by rw [hmain], rfl, rfl, rfl,
    rfl, rfl, rfl⟩

/-- Witness for C9 at the sample database. -/
theorem create_budget_update_frame_witness :
    ∃ ret : BudgetDoc,
      (create_budget wDB wBudgetReq "nid" "t1").2 = .ok ret ∧
      ret.amount = wBudgetReq.amount ∧
      ret.id = wBudget.id ∧ ret.category_id = wBudget.category_id ∧
      ret.category_name = wBudget.category_name ∧
      ret.period = wBudget.period ∧
      ret.created_at = wBudget.created_at :=
  create_budget_update_frame wDB wBudgetReq "nid" "t1" wBudget
    (by decide) (by decide)

/-- Helper: the overview of `boundaryDB` evaluates to its expected
single row (spent 7+9 = 16, the 2026-09-30 transaction excluded). -/
theorem boundaryOverview_eq :
    get_budget_overview exToday .monthly boundaryDB = [boundaryRow] := by
  simp +decide [get_budget_overview, spentAmount, boundaryDB, wBudget,
    wCat, boundaryRow, exToday, defaultColor]
  norm_num

/-- C3: each overview row's spent_amount is the sum of the amounts of
exactly the transactions with expense type, the budget's category, and
an ISO date string lexicographically inside the inclusive window; a
transaction dated exactly on the window start or end day satisfies the
predicate, hence is counted.  (The year bound keeps the six-day weekly
window inside Python's year range.) -/
theorem spent_amount_characterization (today : Date) (hv : today.Valid)
    (hy : today.year ≤ 9992) (period : BudgetPeriod) (db : DB)
    (row : BudgetOverview)
    (hrow : row ∈ get_budget_overview today period db) :
    row.spent_amount =
      ((db.transactions.filter (specSpentMatches row.category_id
          (periodWindow today period).1.isoformat
          (periodWindow today period).2.isoformat)).map
        (fun tx => tx.amount)).sum ∧
    ∀ tx ∈ db.transactions, tx.type = "gasto" →
      tx.category_id = row.category_id →
      (tx.date = (periodWindow today period).1.isoformat ∨
        tx.date = (periodWindow today period).2.isoformat) →
      specSpentMatches row.category_id
        (periodWindow today period).1.isoformat
        (periodWindow today period).2.isoformat tx = true := by
  obtain ⟨hv1, hv2, hord⟩ := window_valid_ordered today hv hy period
  simp only [get_budget_overview, List.mem_map] at hrow
  obtain ⟨b, hb, rfl⟩ := hrow
  constructor
  · show spentAmount db today period b.category_id = _
    unfold spentAmount
    refine congrArg List.sum (congrArg _ ?_)
    apply List.filter_congr
    intro tx _
    unfold spentTxMatches specSpentMatches
    cases h1 : tx.category_id == b.category_id <;>
      cases h2 : tx.type == "gasto" <;> simp [h1, h2]
  · intro tx htx hty hcat hdate
    rcases hdate with h | h <;>
      simp [specSpentMatches, hty, hcat, h, strLe_refl, hord]

/-- Witness for C3: the boundary-day transactions of `boundaryDB` are
counted in the sum and satisfy the predicate. -/
theorem spent_amount_characterization_witness :
    boundaryRow.spent_amount =
      ((boundaryDB.transactions.filter (specSpentMatches
          boundaryRow.category_id
          (periodWindow exToday .monthly).1.isoformat
          (periodWindow exToday .monthly).2.isoformat)).map
        (fun tx => tx.amount)).sum ∧
    ∀ tx ∈ boundaryDB.transactions, tx.type = "gasto" →
      tx.category_id = boundaryRow.category_id →
      (tx.date = (periodWindow exToday .monthly).1.isoformat ∨
        tx.date = (periodWindow exToday .monthly).2.isoformat) →
      specSpentMatches boundaryRow.category_id
        (periodWindow exToday .monthly).1.isoformat
        (periodWindow exToday .monthly).2.isoformat tx = true :=
  spent_amount_characterization exToday (by decide) (by decide) .monthly
    boundaryDB boundaryRow
    (by rw [boundaryOverview_eq]; exact List.mem_singleton.mpr rfl)

/-- C6: the analytics rows are sorted by total descending; each row's
total and count aggregate exactly the expense transactions of its
(category_id, category_name) key with date at least the period start —
no upper date bound — and the rows' keys are exactly the keys occurring
among such transactions. -/
theorem spending_by_category_spec (today : Date) (period : String)
    (db : DB) :
    (get_spending_by_category today period db).Sorted
        (fun a b => b.total_spent ≤ a.total_spent) ∧
    (∀ r ∈ get_spending_by_category today period db,
      r.total_spent =
        ((db.transactions.filter (fun tx =>
            (tx.category_id == r.category_id &&
              tx.category_name == r.category_name) &&
            analyticsMatches (analyticsStart today period).isoformat tx)).map
          (fun tx => tx.amount)).sum ∧
      r.transaction_count =
        (db.transactions.filter (fun tx =>
            (tx.category_id == r.category_id &&
              tx.category_name == r.category_name) &&
            analyticsMatches (analyticsStart today period).isoformat tx)).length) ∧
    (∀ cid cname : String,
      (∃ r ∈ get_spending_by_category today period db,
          r.category_id = cid ∧ r.category_name = cname) ↔
      ∃ tx ∈ db.transactions, tx.type = "gasto" ∧
        strLe (analyticsStart today period).isoformat tx.date = true ∧
        tx.category_id = cid ∧ tx.category_name = cname) := by
  simp only [get_spending_by_category]
  refine ⟨?_, ?_, ?_⟩
  · exact List.Pairwise.map _ (fun a b h => h)
      (List.sorted_insertionSort spendDescKey _)
  · intro r hr
    rw [List.mem_map] at hr
    obtain ⟨a, ha, rfl⟩ := hr
    have ha' : a ∈ analyticsGroups (db.transactions.filter
        (analyticsMatches (analyticsStart today period).isoformat)) :=
      (List.perm_insertionSort spendDescKey _).mem_iff.mp ha
    unfold analyticsGroups at ha'
    rw [List.mem_map] at ha'
    obtain ⟨k, hk, rfl⟩ := ha'
    have hff := List.filter_filter
      (p := fun tx : TransactionDoc =>
        tx.category_id == k.1 && tx.category_name == k.2)
      (analyticsMatches (analyticsStart today period).isoformat)
      db.transactions
    constructor
    · show ((((db.transactions.filter
          (analyticsMatches (analyticsStart today period).isoformat)).filter
          (fun tx => tx.category_id == k.1 && tx.category_name == k.2)).map
          (fun tx => tx.amount)).sum) = _
      rw [hff]
      rfl
    · show (((db.transactions.filter
          (analyticsMatches (analyticsStart today period).isoformat)).filter
          (fun tx => tx.category_id == k.1 && tx.category_name == k.2)).length) = _
      rw [hff]
      rfl
  · intro cid cname
    constructor
    · rintro ⟨r, hr, hcid, hcname⟩
      rw [List.mem_map] at hr
      obtain ⟨a, ha, rfl⟩ := hr
      have ha' : a ∈ analyticsGroups (db.transactions.filter
          (analyticsMatches (analyticsStart today period).isoformat)) :=
        (List.perm_insertionSort spendDescKey _).mem_iff.mp ha
      unfold analyticsGroups at ha'
      rw [List.mem_map] at ha'
      obtain ⟨k, hk, rfl⟩ := ha'
      rw [List.mem_dedup, List.mem_map] at hk
      obtain ⟨tx, htxm, hkey⟩ := hk
      have htx' := List.mem_filter.mp htxm
      have hm : tx.type = "gasto" ∧
          strLe (analyticsStart today period).isoformat tx.date = true := by
        have h2 := htx'.2
        simp [analyticsMatches] at h2
        exact h2
      refine ⟨tx, htx'.1, hm.1, hm.2, ?_, ?_⟩
      · have h1 : tx.category_id = k.1 := congrArg Prod.fst hkey
        rw [h1]
        exact hcid
      · have h2 : tx.category_name = k.2 := congrArg Prod.snd hkey
        rw [h2]
        exact hcname
    · rintro ⟨tx, htx, hty, hsle, hcid, hcname⟩
      have htxm : tx ∈ db.transactions.filter
          (analyticsMatches (analyticsStart today period).isoformat) :=
        List.mem_filter.mpr ⟨htx, by simp [analyticsMatches, hty, hsle]⟩
      have hk : ((cid, cname) : String × String) ∈
          ((db.transactions.filter (analyticsMatches
            (analyticsStart today period).isoformat)).map
            analyticsKey).dedup := by
        rw [List.mem_dedup, List.mem_map]
        exact ⟨tx, htxm, by simp [analyticsKey, hcid, hcname]⟩
      have hg := List.mem_map_of_mem (fun k : String × String =>
        let txs := (db.transactions.filter (analyticsMatches
            (analyticsStart today period).isoformat)).filter
          (fun tx => tx.category_id == k.1 && tx.category_name == k.2)
        (k, ((txs.map (fun tx => tx.amount)).sum, txs.length))) hk
      have hs : _ ∈ List.insertionSort spendDescKey (analyticsGroups
          (db.transactions.filter (analyticsMatches
            (analyticsStart today period).isoformat))) :=
        (List.perm_insertionSort spendDescKey _).mem_iff.mpr hg
      exact ⟨_, List.mem_map_of_mem (analyticsRow db) hs, rfl, rfl⟩

/-- Witness for C6: the future-dated transaction of `futureDB` (dated
2027-01-01, after today's month) produces an analytics row — the
start-date-only window includes it. -/
theorem spending_by_category_spec_witness :
    ∃ r ∈ get_spending_by_category exToday "mensual" futureDB,
      r.category_id = "c1" ∧ r.category_name = "Comida" :=
  ((spending_by_category_spec exToday "mensual" futureDB).2.2 "c1"
    "Comida").mpr ⟨futureTx, by decide, rfl, by decide, rfl, rfl⟩
